import Mathlib

/-!
Verification of the two pbxproj-patching scripts of this repository,
`add_resources_to_xcode.py` (the Resource Bundler) and `add_build_phase.py`
(the Permission-Fix Injector).  File contents are modelled as `List Char`;
each Python string operation (`in`, `str.replace`, `str.rstrip`) and each
`re.search` call is embedded as an executable Lean function on `List Char`.
The freshly generated identifiers (`uuid.uuid4().hex[:24].upper()`) are
passed as explicit parameters.  A script run that returns without writing
is modelled as `none`; a run that writes content `c` as `some c`.
-/

set_option maxRecDepth 100000

/-- The characters of a string literal, the representation of file content. -/
def chars (x : String) : List Char := x.data

/-- `prefixOf p l`: `l` starts with `p` (Python `l.startswith(p)`). -/
def prefixOf : List Char → List Char → Bool
  | [], _ => true
  | _ :: _, [] => false
  | a :: as, b :: bs => (a == b) && prefixOf as bs

/-- Python's `pat in l` substring test. -/
def containsSubstr : List Char → List Char → Bool
  | [], pat => pat.isEmpty
  | c :: rest, pat => prefixOf pat (c :: rest) || containsSubstr rest pat

/-- Boolean equality of contents. -/
def eqChars : List Char → List Char → Bool
  | [], [] => true
  | a :: as, b :: bs => (a == b) && eqChars as bs
  | _, _ => false

/-- `pat` occurs at exactly one position of `l` (used to state "appears
exactly once, not zero times, not two" properties). -/
def appearsExactlyOnce : List Char → List Char → Bool
  | [], _ => false
  | c :: rest, pat =>
    if prefixOf pat (c :: rest) then !containsSubstr rest pat
    else appearsExactlyOnce rest pat

/-- Ascending list of the offsets `i + k` at which `pat` occurs in `l`. -/
def occurrencesFrom : List Char → List Char → Nat → List Nat
  | [], _, _ => []
  | c :: rest, pat, i =>
    (if prefixOf pat (c :: rest) then [i] else []) ++ occurrencesFrom rest pat (i + 1)

/-- The suffix of `l` that starts at the first occurrence of `pat`
(`re.search` of a literal, keeping the match position as a suffix). -/
def findTail : List Char → List Char → Option (List Char)
  | [], _ => none
  | c :: rest, pat =>
    if prefixOf pat (c :: rest) then some (c :: rest) else findTail rest pat

/-- Core of Python's `str.replace`: replaces the non-overlapping occurrences
of `pat`, left to right.  The `skip` counter, set to `pat.length - 1` when a
match is emitted, consumes the rest of the matched occurrence. -/
def raGo (pat rep : List Char) : Nat → List Char → List Char
  | 0, [] => []
  | _ + 1, [] => []
  | 0, c :: rest =>
    if prefixOf pat (c :: rest) then rep ++ raGo pat rep (pat.length - 1) rest
    else c :: raGo pat rep 0 rest
  | skip + 1, _ :: rest => raGo pat rep skip rest

/-- Python's `l.replace(pat, rep)` (every call site of the scripts passes a
non-empty `pat`). -/
def replaceAll (l pat rep : List Char) : List Char :=
  if pat.isEmpty then l else raGo pat rep 0 l

/-- Python's whitespace class, as used by `str.rstrip()`. -/
def isPySpace (c : Char) : Bool :=
  c == ' ' || c == '\t' || c == '\n' || c == '\r' || c == '\x0b' || c == '\x0c'

/-- Python's `str.rstrip()`. -/
def rstrip (l : List Char) : List Char := (l.reverse.dropWhile isPySpace).reverse

/-- `[A-F0-9]`, the character class of the `mainGroup` capture. -/
def isHexUpper (c : Char) : Bool :=
  (48 ≤ c.toNat && c.toNat ≤ 57) || (65 ≤ c.toNat && c.toNat ≤ 70)

/-- Models `re.search(r'begin.*?end', content, re.DOTALL)` for two literal
markers: some begin-marker occurrence is followed by an end-marker
occurrence starting at or after its end. -/
def sectionFound (content beginPat endPat : List Char) : Bool :=
  match findTail content beginPat with
  | none => false
  | some t => containsSubstr (t.drop beginPat.length) endPat

/-- Models the tail `= {[^}]*OPN[^)]run\);` of the record regexes (with
`run = [^)]+` when `needRun`, else `[^)]*`): at offset `j` after the record
head, `opn` must occur, then the maximal `)`-free run, then `');'`.
Returns the offset and the run. -/
def runTry (opn : List Char) (needRun : Bool) (after : List Char) (j : Nat) :
    Option (Nat × List Char) :=
  if prefixOf opn (after.drop j) then
    if needRun && ((after.drop (j + opn.length)).takeWhile (fun c => c ≠ ')')).isEmpty then
      none
    else
      if prefixOf (chars ");") ((after.drop (j + opn.length)).dropWhile (fun c => c ≠ ')')) then
        some (j, (after.drop (j + opn.length)).takeWhile (fun c => c ≠ ')'))
      else none
  else none

/-- Regex backtracking over the candidate offsets for `[^}]*opn`. -/
def runTryList (opn : List Char) (needRun : Bool) (after : List Char) :
    List Nat → Option (Nat × List Char)
  | [] => none
  | j :: js =>
    match runTry opn needRun after j with
    | some x => some x
    | none => runTryList opn needRun after js

/-- Candidate offsets for `[^}]*opn` after a record head: occurrences of
`opn` inside the maximal `}`-free run, greedily tried largest first. -/
def candidates (opn after : List Char) : List Nat :=
  ((occurrencesFrom after opn 0).filter
    (fun j => decide (j ≤ (after.takeWhile (fun c => c ≠ '\x7d')).length))).reverse

/-- Scans `l` for the leftmost occurrence of the literal record head
`headPat` whose record body matches `[^}]*opn[^)]run\);`, the regex
backtracking over later head occurrences on failure.  Returns the text
after the head together with the offset and run of the successful match. -/
def recordScan (headPat opn : List Char) (needRun : Bool) :
    List Char → Option (List Char × Nat × List Char)
  | [] => none
  | c :: rest =>
    if prefixOf headPat (c :: rest) then
      match runTryList opn needRun ((c :: rest).drop headPat.length)
          (candidates opn ((c :: rest).drop headPat.length)) with
      | some (j, run) => some ((c :: rest).drop headPat.length, j, run)
      | none => recordScan headPat opn needRun rest
    else recordScan headPat opn needRun rest

/-! ### `add_build_phase.py` (the Permission-Fix Injector) -/

/-- The shell script text of the injected phase (`script_content` in the
source; every `\n` and `\"` is a literal two-character escape destined for
the descriptor file). -/
def script_content : List Char :=
  chars "# Fix permissions for bundled binaries\\nif [ -d \\\"$\x7bTARGET_BUILD_DIR\x7d/$\x7bUNLOCALIZED_RESOURCES_FOLDER_PATH\x7d/bin\\\" ]; then\\n    chmod +x \\\"$\x7bTARGET_BUILD_DIR\x7d/$\x7bUNLOCALIZED_RESOURCES_FOLDER_PATH\x7d/bin/yt-dlp\\\"\\n    chmod +x \\\"$\x7bTARGET_BUILD_DIR\x7d/$\x7bUNLOCALIZED_RESOURCES_FOLDER_PATH\x7d/bin/ffmpeg\\\"\\n    chmod +x \\\"$\x7bTARGET_BUILD_DIR\x7d/$\x7bUNLOCALIZED_RESOURCES_FOLDER_PATH\x7d/bin/ffprobe\\\"\\n    echo \\\"Fixed binary permissions\\\"\\nelse\\n    echo \\\"No bundled binaries found\\\"\\nfi"

/-- The build-phase record inserted by the injector (the body shared by its
`new_section` and `new_phase` f-strings, lines 52-69 and 76-93 of the
source, which are identical). -/
def phase_record (script_phase_ref : List Char) : List Char :=
  chars "\t\t" ++ script_phase_ref ++
  chars " /* Fix Binary Permissions */ = \x7b\n\t\t\tisa = PBXShellScriptBuildPhase;\n\t\t\tbuildActionMask = 2147483647;\n\t\t\tfiles = (\n\t\t\t);\n\t\t\tinputFileListPaths = (\n\t\t\t);\n\t\t\tinputPaths = (\n\t\t\t);\n\t\t\tname = \"Fix Binary Permissions\";\n\t\t\toutputFileListPaths = (\n\t\t\t);\n\t\t\toutputPaths = (\n\t\t\t);\n\t\t\trunOnlyForDeploymentPostprocessing = 0;\n\t\t\tshellPath = /bin/sh;\n\t\t\tshellScript = \"" ++
  script_content ++ chars "\";\n\t\t\x7d;\n"

/-- `new_section` of the source: a whole fresh PBXShellScriptBuildPhase
section. -/
def new_section (script_phase_ref : List Char) : List Char :=
  chars "\n/* Begin PBXShellScriptBuildPhase section */\n" ++
  phase_record script_phase_ref ++
  chars "/* End PBXShellScriptBuildPhase section */\n"

def beginShell : List Char := chars "/* Begin PBXShellScriptBuildPhase section */"

def endShell : List Char := chars "/* End PBXShellScriptBuildPhase section */"

/-- The *search* pattern `r'/\* End PBXResourcesBuildPhase section \*/'`
(regex-escaped, so it denotes the plain marker). -/
def endResPhase : List Char := chars "/* End PBXResourcesBuildPhase section */"

/-- The *replace* target `'/\* End PBXResourcesBuildPhase section */'` of
source line 72: a plain Python string in which `\*` is a literal
backslash-asterisk, not an escape. -/
def endResPhaseBS : List Char := chars "/\\* End PBXResourcesBuildPhase section */"

/-- The head of the target-record regex of source line 99. -/
def tmHead : List Char := chars "F8522F062E588C4300B30F2A /* yt-dlp-MAX */ = \x7b"

def bpOpen : List Char := chars "buildPhases = ("

/-- Models `re.search(r'(F8522F06... /\* yt-dlp-MAX \*/ = {[^}]*buildPhases
= \([^)]+)\);', content, re.DOTALL)`, returning group(1). -/
def targetMatch (content : List Char) : Option (List Char) :=
  match recordScan tmHead bpOpen true content with
  | some (after, j, run) => some (tmHead ++ after.take j ++ bpOpen ++ run)
  | none => none

/-- Source lines 42-96: ensure the PBXShellScriptBuildPhase section holds
the new phase record.  When the section exists the record is spliced in
before its end marker; when it does not, the `content.replace` call targets
the backslash-carrying literal `endResPhaseBS`. -/
def shellStep (content script_phase_ref : List Char) : List Char :=
  if sectionFound content beginShell endShell then
    replaceAll content endShell (phase_record script_phase_ref ++ endShell)
  else
    if containsSubstr content endResPhase then
      replaceAll content endResPhaseBS (endResPhaseBS ++ new_section script_phase_ref)
    else content

/-- Source lines 98-107: append the new phase identifier to the target's
`buildPhases` list when the target record matches and the identifier is not
already in the matched text. -/
def wireStep (content script_phase_ref : List Char) : List Char :=
  match targetMatch content with
  | none => content
  | some build_phases =>
    if containsSubstr build_phases script_phase_ref then content
    else
      replaceAll content (build_phases ++ chars ");")
        (build_phases ++ chars ",\n\t\t\t\t" ++ script_phase_ref ++
          chars " /* Fix Binary Permissions */,\n\t\t\t);")

/-- `add_build_phase(pbxproj_path)` of `add_build_phase.py`, on the file's
content; `none` models returning without a write, `some c` writing `c`.
`script_build_ref` is generated by the source but never used. -/
def add_build_phase (content script_phase_ref script_build_ref : List Char) :
    Option (List Char) :=
  if containsSubstr content (chars "Fix Binary Permissions") then none
  else some (wireStep (shellStep content script_phase_ref) script_phase_ref)

/-- The hard-coded descriptor path both scripts operate on. -/
def pbxprojPath : String :=
  "/Users/mstrslv/devspace/yt-dlp-MAX/yt-dlp-MAX.xcodeproj/project.pbxproj"

/-- Observable effects of one run of the injector's `__main__` block:
exit status and the write to the descriptor (path abstracted to its
existence flag). -/
structure InjectorRun where
  exitCode : Nat
  fileWrite : Option (List Char)
deriving DecidableEq

/-- The `__main__` block of `add_build_phase.py`. -/
def add_build_phase_main (fileExists : Bool)
    (content script_phase_ref script_build_ref : List Char) : InjectorRun :=
  if fileExists then
    ⟨0, add_build_phase content script_phase_ref script_build_ref⟩
  else ⟨1, none⟩

/-! ### `add_resources_to_xcode.py` (the Resource Bundler) -/

def beginFileRef : List Char := chars "/* Begin PBXFileReference section */"

def endFileRef : List Char := chars "/* End PBXFileReference section */"

def beginGroup : List Char := chars "/* Begin PBXGroup section */"

def endGroup : List Char := chars "/* End PBXGroup section */"

def beginBuildFile : List Char := chars "/* Begin PBXBuildFile section */"

def endBuildFile : List Char := chars "/* End PBXBuildFile section */"

def beginResPhase : List Char := chars "/* Begin PBXResourcesBuildPhase section */"

/-- The head of the Resources-phase record regex of source lines 103-106. -/
def resHead : List Char := chars "F8522F052E588C4300B30F2A /* Resources */ = \x7b"

/-- `re.search(r'(/\* Begin PBXFileReference section \*/.*?/\* End
PBXFileReference section \*/)', content, re.DOTALL)` as a presence test. -/
def fileRefSectionFound (content : List Char) : Bool :=
  sectionFound content beginFileRef endFileRef

/-- The five file-reference records of the `new_refs` f-string. -/
def new_refs (resources_folder_ref bin_folder_ref ytdlp_ref ffmpeg_ref ffprobe_ref :
    List Char) : List Char :=
  chars "\t\t" ++ resources_folder_ref ++
  chars " /* Resources */ = \x7bisa = PBXFileReference; lastKnownFileType = folder; path = Resources; sourceTree = \"<group>\"; \x7d;\n\t\t" ++
  bin_folder_ref ++
  chars " /* bin */ = \x7bisa = PBXFileReference; lastKnownFileType = folder; path = bin; sourceTree = \"<group>\"; \x7d;\n\t\t" ++
  ytdlp_ref ++
  chars " /* yt-dlp */ = \x7bisa = PBXFileReference; lastKnownFileType = \"compiled.mach-o.executable\"; path = \"yt-dlp\"; sourceTree = \"<group>\"; \x7d;\n\t\t" ++
  ffmpeg_ref ++
  chars " /* ffmpeg */ = \x7bisa = PBXFileReference; lastKnownFileType = \"compiled.mach-o.executable\"; path = ffmpeg; sourceTree = \"<group>\"; \x7d;\n\t\t" ++
  ffprobe_ref ++
  chars " /* ffprobe */ = \x7bisa = PBXFileReference; lastKnownFileType = \"compiled.mach-o.executable\"; path = ffprobe; sourceTree = \"<group>\"; \x7d;\n"

/-- The two PBXGroup records of the `resources_group` f-string. -/
def resources_group (resources_folder_ref bin_folder_ref ytdlp_ref ffmpeg_ref
    ffprobe_ref : List Char) : List Char :=
  chars "\t\t" ++ resources_folder_ref ++
  chars " /* Resources */ = \x7b\n\t\t\tisa = PBXGroup;\n\t\t\tchildren = (\n\t\t\t\t" ++
  bin_folder_ref ++
  chars " /* bin */,\n\t\t\t);\n\t\t\tpath = Resources;\n\t\t\tsourceTree = \"<group>\";\n\t\t\x7d;\n\t\t" ++
  bin_folder_ref ++
  chars " /* bin */ = \x7b\n\t\t\tisa = PBXGroup;\n\t\t\tchildren = (\n\t\t\t\t" ++
  ytdlp_ref ++ chars " /* yt-dlp */,\n\t\t\t\t" ++
  ffmpeg_ref ++ chars " /* ffmpeg */,\n\t\t\t\t" ++
  ffprobe_ref ++
  chars " /* ffprobe */,\n\t\t\t);\n\t\t\tpath = bin;\n\t\t\tsourceTree = \"<group>\";\n\t\t\x7d;\n"

/-- The PBXBuildFile record of the `new_build_file` f-string (lines 123-124). -/
def new_build_file_record (resources_build_ref resources_folder_ref : List Char) :
    List Char :=
  chars "\t\t" ++ resources_build_ref ++
  chars " /* Resources in Resources */ = \x7bisa = PBXBuildFile; fileRef = " ++
  resources_folder_ref ++ chars " /* Resources */; \x7d;\n"

def projObj : List Char := chars "F8522EFE2E588C4300B30F2A /* Project object */"

def mgAttr : List Char := chars "mainGroup = "

/-- The lazy `.*?mainGroup = ([A-F0-9]+)` tail of the main-group regex:
successive `mainGroup = ` occurrences are tried until one is followed by a
non-empty run of `[A-F0-9]` characters, which is captured greedily. -/
def mainGroupScan : List Char → Option (List Char)
  | [] => none
  | c :: rest =>
    if prefixOf mgAttr (c :: rest) then
      let run := ((c :: rest).drop mgAttr.length).takeWhile isHexUpper
      if run.isEmpty then mainGroupScan rest else some run
    else mainGroupScan rest

/-- Models `re.search(r'(F8522EFE... /\* Project object \*/.*?mainGroup =
)([A-F0-9]+)', content, re.DOTALL)`, returning group(2). -/
def findMainGroupId (content : List Char) : Option (List Char) :=
  match findTail content projObj with
  | none => none
  | some t => mainGroupScan (t.drop projObj.length)

/-- Models `re.search(f'{main_group_id} = {{[^}}]*children =
\\(([^\\)]+)\\);', content)`, returning group(1), the children text. -/
def findChildren (content main_group_id : List Char) : Option (List Char) :=
  match recordScan (main_group_id ++ chars " = \x7b") (chars "children = (") true
      content with
  | some (_, _, run) => some run
  | none => none

/-- Models `re.search(r'(/\* Begin PBXResourcesBuildPhase section
\*/.*?)(F8522F05... /\* Resources \*/ = {[^}]*files = \([^)]*\);)', content,
re.DOTALL)`, returning group(2). -/
def findResourcesSection (content : List Char) : Option (List Char) :=
  match findTail content beginResPhase with
  | none => none
  | some t =>
    match recordScan resHead (chars "files = (") false
        (t.drop beginResPhase.length) with
    | some (after, j, run) =>
      some (resHead ++ after.take j ++ chars "files = (" ++ run ++ chars ");")
    | none => none

/-- Source lines 52-54: splice the five new file references in before the
PBXFileReference end marker. -/
def fileRefStep (content r b y fm fp : List Char) : List Char :=
  replaceAll content endFileRef (new_refs r b y fm fp ++ endFileRef)

/-- Source lines 56-73: append the Resources group to the main group's
children list, when the project object, the main-group record and its
children list are all found and the reference is not already a child. -/
def groupChildrenStep (content resources_folder_ref : List Char) : List Char :=
  match findMainGroupId content with
  | none => content
  | some main_group_id =>
    match findChildren content main_group_id with
    | none => content
    | some children =>
      if containsSubstr children resources_folder_ref then content
      else
        replaceAll content (chars "children = (" ++ children ++ chars ");")
          (chars "children = (" ++ rstrip children ++ chars ",\n\t\t\t\t" ++
            resources_folder_ref ++ chars " /* Resources */," ++ chars "\n\t\t\t);")

/-- Source lines 75-100: splice the Resources/bin group records in before
the PBXGroup end marker. -/
def groupSectionStep (content r b y fm fp : List Char) : List Char :=
  if sectionFound content beginGroup endGroup then
    replaceAll content endGroup (resources_group r b y fm fp ++ endGroup)
  else content

/-- Source lines 102-116: add the Resources build file to the files list of
the main target's Resources copy phase. -/
def resourcesPhaseStep (content resources_build_ref : List Char) : List Char :=
  match findResourcesSection content with
  | none => content
  | some resources_section =>
    if containsSubstr resources_section resources_build_ref then content
    else
      replaceAll content resources_section
        (replaceAll resources_section (chars "files = (")
          (chars "files = (\n" ++ chars "\t\t\t\t" ++ resources_build_ref ++
            chars " /* Resources in Resources */,"))

/-- Source lines 118-126: splice the PBXBuildFile record in before the
PBXBuildFile end marker. -/
def buildFileStep (content resources_build_ref resources_folder_ref : List Char) :
    List Char :=
  if sectionFound content beginBuildFile endBuildFile then
    replaceAll content endBuildFile
      (new_build_file_record resources_build_ref resources_folder_ref ++ endBuildFile)
  else content

/-- `add_resources_to_project(pbxproj_path)` of `add_resources_to_xcode.py`,
on the file's content, the six generated identifiers passed explicitly;
`none` models returning without a write, `some c` writing `c`. -/
def add_resources_to_project (content resources_folder_ref bin_folder_ref ytdlp_ref
    ffmpeg_ref ffprobe_ref resources_build_ref : List Char) : Option (List Char) :=
  if containsSubstr content (chars "Resources/bin") ||
      containsSubstr content (chars "Resources folder") then none
  else if fileRefSectionFound content then
    some (buildFileStep
      (resourcesPhaseStep
        (groupSectionStep
          (groupChildrenStep
            (fileRefStep content resources_folder_ref bin_folder_ref ytdlp_ref
              ffmpeg_ref ffprobe_ref)
            resources_folder_ref)
          resources_folder_ref bin_folder_ref ytdlp_ref ffmpeg_ref ffprobe_ref)
        resources_build_ref)
      resources_build_ref resources_folder_ref)
  else none

/-- Observable effects of one run of the bundler's `__main__` block: exit
status, the backup write (path and content) and the descriptor write. -/
structure BundlerRun where
  exitCode : Nat
  backupWrite : Option (String × List Char)
  fileWrite : Option (List Char)
deriving DecidableEq

/-- The `__main__` block of `add_resources_to_xcode.py`: when the descriptor
exists, its content is copied to the `.backup` sibling before
`add_resources_to_project` runs. -/
def add_resources_main (fileExists : Bool) (content r b y fm fp rb : List Char) :
    BundlerRun :=
  if fileExists then
    ⟨0, some (pbxprojPath ++ ".backup", content),
      add_resources_to_project content r b y fm fp rb⟩
  else ⟨1, none, none⟩

/-! ### Concrete inputs

Concrete identifiers standing in for the random `generate_uuid()` draws of a
first run (`uA*`), of a second run (`uB*`) and of injector runs (`uP`, `uQ`),
and concrete descriptor contents exercising the scripts' anchors. -/

def uA1 : List Char := chars "AAAAAAAAAAAAAAAAAAAAAAA1"

def uA2 : List Char := chars "AAAAAAAAAAAAAAAAAAAAAAA2"

def uA3 : List Char := chars "AAAAAAAAAAAAAAAAAAAAAAA3"

def uA4 : List Char := chars "AAAAAAAAAAAAAAAAAAAAAAA4"

def uA5 : List Char := chars "AAAAAAAAAAAAAAAAAAAAAAA5"

def uA6 : List Char := chars "AAAAAAAAAAAAAAAAAAAAAAA6"

def uB1 : List Char := chars "BBBBBBBBBBBBBBBBBBBBBBB1"

def uB2 : List Char := chars "BBBBBBBBBBBBBBBBBBBBBBB2"

def uB3 : List Char := chars "BBBBBBBBBBBBBBBBBBBBBBB3"

def uB4 : List Char := chars "BBBBBBBBBBBBBBBBBBBBBBB4"

def uB5 : List Char := chars "BBBBBBBBBBBBBBBBBBBBBBB5"

def uB6 : List Char := chars "BBBBBBBBBBBBBBBBBBBBBBB6"

def uP : List Char := chars "CCCCCCCCCCCCCCCCCCCCCCC1"

def uQ : List Char := chars "CCCCCCCCCCCCCCCCCCCCCCC2"

/-- A minimal descriptor holding exactly the anchors the Resource Bundler
uses: empty PBXBuildFile and PBXFileReference sections, the PBXGroup section
with the main group, the project object with its `mainGroup` attribute, and
the PBXResourcesBuildPhase section with the hard-coded Resources phase. -/
def minDesc : List Char := chars
  "// !$*UTF8*$!\n\x7b\n\tobjects = \x7b\n/* Begin PBXBuildFile section */\n/* End PBXBuildFile section */\n/* Begin PBXFileReference section */\n/* End PBXFileReference section */\n/* Begin PBXGroup section */\n\t\tF8522F002E588C4300B30F2A = \x7b\n\t\t\tisa = PBXGroup;\n\t\t\tchildren = (\n\t\t\t\tF8522F0A2E588C4300B30F2A /* yt-dlp-MAX */,\n\t\t\t);\n\t\t\tsourceTree = \"<group>\";\n\t\t\x7d;\n/* End PBXGroup section */\n/* Begin PBXProject section */\n\t\tF8522EFE2E588C4300B30F2A /* Project object */ = \x7b\n\t\t\tisa = PBXProject;\n\t\t\tmainGroup = F8522F002E588C4300B30F2A;\n\t\t\x7d;\n/* End PBXProject section */\n/* Begin PBXResourcesBuildPhase section */\n\t\tF8522F052E588C4300B30F2A /* Resources */ = \x7b\n\t\t\tisa = PBXResourcesBuildPhase;\n\t\t\tbuildActionMask = 2147483647;\n\t\t\tfiles = (\n\t\t\t);\n\t\t\trunOnlyForDeploymentPostprocessing = 0;\n\t\t\x7d;\n/* End PBXResourcesBuildPhase section */\n\t\x7d;\n\x7d\n"

/-- The content written by a first Resource Bundler run on `minDesc`. -/
def bundlerOut1 : List Char :=
  (add_resources_to_project minDesc uA1 uA2 uA3 uA4 uA5 uA6).getD []

/-- A descriptor with the PBXResourcesBuildPhase section, no
PBXShellScriptBuildPhase section and the hard-coded target record — the
anchor-absent scenario of the Permission-Fix Injector. -/
def injDesc : List Char := chars
  "// !$*UTF8*$!\n/* Begin PBXResourcesBuildPhase section */\n\t\tF8522F052E588C4300B30F2A /* Resources */ = \x7b\n\t\t\tisa = PBXResourcesBuildPhase;\n\t\t\tfiles = (\n\t\t\t);\n\t\t\x7d;\n/* End PBXResourcesBuildPhase section */\n/* Begin PBXNativeTarget section */\n\t\tF8522F062E588C4300B30F2A /* yt-dlp-MAX */ = \x7b\n\t\t\tisa = PBXNativeTarget;\n\t\t\tbuildPhases = (\n\t\t\t\tF8522F042E588C4300B30F2A /* Sources */,\n\t\t\t\tF8522F052E588C4300B30F2A /* Resources */,\n\t\t\t);\n\t\t\tname = \"yt-dlp-MAX\";\n\t\t\x7d;\n/* End PBXNativeTarget section */\n"

/-- The content written by the Permission-Fix Injector on `injDesc`. -/
def injOut : List Char := (add_build_phase injDesc uP uQ).getD []

/-- group(1) of the injector's target regex on `injDesc`. -/
def injBP : List Char := chars
  "F8522F062E588C4300B30F2A /* yt-dlp-MAX */ = \x7b\n\t\t\tisa = PBXNativeTarget;\n\t\t\tbuildPhases = (\n\t\t\t\tF8522F042E588C4300B30F2A /* Sources */,\n\t\t\t\tF8522F052E588C4300B30F2A /* Resources */,\n\t\t\t"

/-- A descriptor lacking the PBXFileReference section markers but holding
every later anchor of the Resource Bundler (group, Resources phase,
build-file section). -/
def noFileRefDesc : List Char := chars
  "// !$*UTF8*$!\n\x7b\n\tobjects = \x7b\n/* Begin PBXBuildFile section */\n/* End PBXBuildFile section */\n/* Begin PBXGroup section */\n\t\tF8522F002E588C4300B30F2A = \x7b\n\t\t\tisa = PBXGroup;\n\t\t\tchildren = (\n\t\t\t\tF8522F0A2E588C4300B30F2A /* yt-dlp-MAX */,\n\t\t\t);\n\t\t\tsourceTree = \"<group>\";\n\t\t\x7d;\n/* End PBXGroup section */\n/* Begin PBXProject section */\n\t\tF8522EFE2E588C4300B30F2A /* Project object */ = \x7b\n\t\t\tisa = PBXProject;\n\t\t\tmainGroup = F8522F002E588C4300B30F2A;\n\t\t\x7d;\n/* End PBXProject section */\n/* Begin PBXResourcesBuildPhase section */\n\t\tF8522F052E588C4300B30F2A /* Resources */ = \x7b\n\t\t\tisa = PBXResourcesBuildPhase;\n\t\t\tfiles = (\n\t\t\t);\n\t\t\x7d;\n/* End PBXResourcesBuildPhase section */\n\t\x7d;\n\x7d\n"

/-- A descriptor holding only the PBXFileReference section markers, every
other Resource Bundler anchor missing. -/
def onlyFileRefDesc : List Char := chars
  "/* Begin PBXFileReference section */\n/* End PBXFileReference section */\n"

/-! ### Lemmas about the text-splicing primitives -/

theorem eqChars_refl (l : List Char) : eqChars l l = true := by
  induction l with
  | nil => rfl
  | cons a as ih => simp [eqChars, ih]

theorem prefixOf_exists {p l : List Char} (h : prefixOf p l = true) :
    ∃ t, l = p ++ t := by
  induction p generalizing l with
  | nil => exact ⟨l, rfl⟩
  | cons a as ih =>
    cases l with
    | nil => simp [prefixOf] at h
    | cons b bs =>
      simp only [prefixOf, Bool.and_eq_true, beq_iff_eq] at h
      obtain ⟨hab, hp⟩ := h
      obtain ⟨t, ht⟩ := ih hp
      exact ⟨t, by rw [ht, hab]; rfl⟩

theorem prefixOf_append (p t : List Char) : prefixOf p (p ++ t) = true := by
  induction p with
  | nil => rfl
  | cons a as ih => simp [prefixOf, ih]

theorem containsSubstr_of_prefixOf {l p : List Char} (h : prefixOf p l = true) :
    containsSubstr l p = true := by
  cases l with
  | nil =>
    cases p with
    | nil => rfl
    | cons a as => simp [prefixOf] at h
  | cons c rest => simp [containsSubstr, h]

theorem containsSubstr_here (p t : List Char) : containsSubstr (p ++ t) p = true :=
  containsSubstr_of_prefixOf (prefixOf_append p t)

theorem containsSubstr_cons (c : Char) {l p : List Char}
    (h : containsSubstr l p = true) : containsSubstr (c :: l) p = true := by
  simp [containsSubstr, h]

theorem containsSubstr_intro (t₁ p t₂ : List Char) :
    containsSubstr (t₁ ++ p ++ t₂) p = true := by
  induction t₁ with
  | nil => simpa using containsSubstr_here p t₂
  | cons c t₁ ih => simpa using containsSubstr_cons c (by simpa using ih)

theorem containsSubstr_elim {l p : List Char} (h : containsSubstr l p = true) :
    ∃ t₁ t₂, l = t₁ ++ p ++ t₂ := by
  induction l with
  | nil =>
    cases p with
    | nil => exact ⟨[], [], rfl⟩
    | cons a as => simp [containsSubstr, List.isEmpty] at h
  | cons c rest ih =>
    simp only [containsSubstr, Bool.or_eq_true] at h
    rcases h with hpre | hrest
    · obtain ⟨t, ht⟩ := prefixOf_exists hpre
      exact ⟨[], t, by simp [ht]⟩
    · obtain ⟨t₁, t₂, h12⟩ := ih hrest
      exact ⟨c :: t₁, t₂, by simp [h12]⟩

theorem raGo_not_contains {pat rep l : List Char}
    (h : containsSubstr l pat = false) : raGo pat rep 0 l = l := by
  induction l with
  | nil => rfl
  | cons c rest ih =>
    simp only [containsSubstr, Bool.or_eq_false_iff] at h
    simp [raGo, h.1, ih h.2]

theorem replaceAll_not_contains {l pat rep : List Char}
    (h : containsSubstr l pat = false) : replaceAll l pat rep = l := by
  unfold replaceAll
  cases hp : pat.isEmpty
  · simp [raGo_not_contains h]
  · simp

theorem raGo_contains {pat rep l : List Char} (hne : pat ≠ [])
    (h : containsSubstr l pat = true) :
    containsSubstr (raGo pat rep 0 l) rep = true := by
  induction l with
  | nil =>
    cases pat with
    | nil => exact absurd rfl hne
    | cons a as => simp [containsSubstr, List.isEmpty] at h
  | cons c rest ih =>
    cases hpre : prefixOf pat (c :: rest) with
    | true =>
      have : raGo pat rep 0 (c :: rest) =
          rep ++ raGo pat rep (pat.length - 1) rest := by simp [raGo, hpre]
      rw [this]
      exact containsSubstr_here rep _
    | false =>
      have hrest : containsSubstr rest pat = true := by
        simpa [containsSubstr, hpre] using h
      have : raGo pat rep 0 (c :: rest) = c :: raGo pat rep 0 rest := by
        simp [raGo, hpre]
      rw [this]
      exact containsSubstr_cons c (ih hrest)

theorem replaceAll_contains {l pat rep : List Char} (hne : pat ≠ [])
    (h : containsSubstr l pat = true) :
    containsSubstr (replaceAll l pat rep) rep = true := by
  unfold replaceAll
  have hp : pat.isEmpty = false := by
    cases pat with
    | nil => exact absurd rfl hne
    | cons a as => rfl
  simp only [hp, Bool.false_eq_true, if_false]
  exact raGo_contains hne h

theorem runTry_decomp {opn : List Char} {ne : Bool} {after run : List Char}
    {j j' : Nat} (h : runTry opn ne after j = some (j', run)) :
    j' = j ∧ ∃ r, after = after.take j ++ opn ++ run ++ chars ");" ++ r := by
  unfold runTry at h
  split at h
  case isFalse => exact absurd h (by simp)
  case isTrue hp =>
    split at h
    case isTrue => exact absurd h (by simp)
    case isFalse hni =>
      split at h
      case isFalse => exact absurd h (by simp)
      case isTrue hcl =>
        simp only [Option.some.injEq, Prod.mk.injEq] at h
        obtain ⟨hj, hrun⟩ := h
        obtain ⟨t, ht⟩ := prefixOf_exists hp
        obtain ⟨r, hr⟩ := prefixOf_exists hcl
        have htail : after.drop (j + opn.length) = t := by
          rw [← List.drop_drop, ht, List.drop_left]
        rw [htail] at hrun hr
        refine ⟨hj.symm, r, ?_⟩
        have hsplit : t = run ++ (chars ");" ++ r) := by
          rw [← hrun, ← hr]
          exact (List.takeWhile_append_dropWhile _ _).symm
        have : after = after.take j ++ (opn ++ (run ++ (chars ");" ++ r))) := by
          conv_lhs => rw [← List.take_append_drop j after, ht, hsplit]
        simpa [List.append_assoc] using this

theorem runTryList_decomp {opn : List Char} {ne : Bool} {after run : List Char}
    {j : Nat} {js : List Nat}
    (h : runTryList opn ne after js = some (j, run)) :
    ∃ r, after = after.take j ++ opn ++ run ++ chars ");" ++ r := by
  induction js with
  | nil => simp [runTryList] at h
  | cons j₀ js ih =>
    simp only [runTryList] at h
    cases hrt : runTry opn ne after j₀ with
    | none => rw [hrt] at h; exact ih h
    | some x =>
      rw [hrt] at h
      simp only [Option.some.injEq] at h
      rw [h] at hrt
      obtain ⟨hj, r, hr⟩ := runTry_decomp hrt
      subst hj
      exact ⟨r, hr⟩

theorem recordScan_decomp {headPat opn : List Char} {ne : Bool}
    {l after run : List Char} {j : Nat}
    (h : recordScan headPat opn ne l = some (after, j, run)) :
    ∃ t r, l = t ++ headPat ++ after ∧
      after = after.take j ++ opn ++ run ++ chars ");" ++ r := by
  induction l with
  | nil => simp [recordScan] at h
  | cons c rest ih =>
    rw [recordScan] at h
    split at h
    case isTrue hp =>
      split at h
      case h_1 j₀ run₀ heq =>
        simp only [Option.some.injEq, Prod.mk.injEq] at h
        obtain ⟨hafter, hj, hrun⟩ := h
        subst hj; subst hrun
        rw [hafter] at heq
        obtain ⟨r, hr⟩ := runTryList_decomp heq
        obtain ⟨t0, ht0⟩ := prefixOf_exists hp
        have hdrop : (c :: rest).drop headPat.length = t0 := by
          rw [ht0, List.drop_left]
        rw [hdrop] at hafter
        refine ⟨[], r, ?_, hr⟩
        rw [hafter] at ht0
        simpa using ht0
      case h_2 heq =>
        obtain ⟨t, r, h1, h2⟩ := ih h
        exact ⟨c :: t, r, by simp [h1], h2⟩
    case isFalse hp =>
      obtain ⟨t, r, h1, h2⟩ := ih h
      exact ⟨c :: t, r, by simp [h1], h2⟩

theorem targetMatch_contains {content bp : List Char}
    (h : targetMatch content = some bp) :
    containsSubstr content (bp ++ chars ");") = true := by
  unfold targetMatch at h
  cases hrs : recordScan tmHead bpOpen true content with
  | none => rw [hrs] at h; exact absurd h (by simp)
  | some x =>
    rw [hrs] at h
    obtain ⟨after, j, run⟩ := x
    simp only [Option.some.injEq] at h
    obtain ⟨t, r, h1, h2⟩ := recordScan_decomp hrs
    generalize hu : after.take j = u at h h2
    rw [h1, h2, ← h]
    have := containsSubstr_intro t (tmHead ++ u ++ bpOpen ++ run ++ chars ");") r
    simpa [List.append_assoc] using this

/-! ### The claims -/

/-- C4: for every descriptor content that already contains the substring
'Fix Binary Permissions', `add_build_phase` returns before any write (the
file is left byte-for-byte unchanged). -/
theorem C4_marker_no_write (content p q : List Char)
    (h : containsSubstr content (chars "Fix Binary Permissions") = true) :
    add_build_phase content p q = none := by
  simp [add_build_phase, h]

theorem C4_marker_no_write_witness :
    containsSubstr (chars "name = \"Fix Binary Permissions\";")
      (chars "Fix Binary Permissions") = true ∧
    add_build_phase (chars "name = \"Fix Binary Permissions\";") uP uQ = none :=
  ⟨by decide, C4_marker_no_write _ uP uQ (by decide)⟩

/-- C5: on every run with an existing input file, the Resource Bundler's
entry point writes `<original path>.backup` with exactly the original
content, unconditionally — for every content, including ones where the
idempotency check subsequently suppresses the patch. -/
theorem C5_backup_fidelity (content r b y fm fp rb : List Char) :
    (add_resources_main true content r b y fm fp rb).backupWrite =
      some (pbxprojPath ++ ".backup", content) := rfl

/-- C8: when the hard-coded descriptor path does not exist, each script
exits with status 1 and performs no write at all (no backup either). -/
theorem C8_missing_file_no_mutation (content r b y fm fp rb p q : List Char) :
    add_resources_main false content r b y fm fp rb = ⟨1, none, none⟩ ∧
    add_build_phase_main false content p q = ⟨1, none⟩ :=
  ⟨rfl, rfl⟩

/-- C9: without the idempotency markers and without the PBXFileReference
section markers, `add_resources_to_project` returns after printing an error
and performs no write at all — no partial patch from the later steps. -/
theorem C9_missing_fileref_no_write (content r b y fm fp rb : List Char)
    (h1 : containsSubstr content (chars "Resources/bin") = false)
    (h2 : containsSubstr content (chars "Resources folder") = false)
    (h3 : fileRefSectionFound content = false) :
    add_resources_to_project content r b y fm fp rb = none := by
  simp [add_resources_to_project, h1, h2, h3]

theorem C9_missing_fileref_no_write_witness :
    fileRefSectionFound (chars "hello") = false ∧
    add_resources_to_project (chars "hello") uA1 uA2 uA3 uA4 uA5 uA6 = none :=
  ⟨by decide,
    C9_missing_fileref_no_write _ _ _ _ _ _ _ (by decide) (by decide) (by decide)⟩

/-- C3 (amended): every insertion step apart from the Resource Bundler's
PBXFileReference check is non-fatal — with the marker absent, the bundler
writes whenever the PBXFileReference section is found, whatever other
anchors are missing, and the injector writes unconditionally; but a missing
PBXFileReference section makes the bundler return without writing (cf. the
counterexample), rather than proceed to the remaining steps. -/
theorem C3_guarded_steps_amended :
    (∀ content r b y fm fp rb : List Char,
      containsSubstr content (chars "Resources/bin") = false →
      containsSubstr content (chars "Resources folder") = false →
      fileRefSectionFound content = true →
      (add_resources_to_project content r b y fm fp rb).isSome = true) ∧
    (∀ content p q : List Char,
      containsSubstr content (chars "Fix Binary Permissions") = false →
      (add_build_phase content p q).isSome = true) := by
  constructor
  · intro content r b y fm fp rb h1 h2 h3
    simp [add_resources_to_project, h1, h2, h3]
  · intro content p q h
    simp [add_build_phase, h]

theorem C3_guarded_steps_amended_witness :
    fileRefSectionFound onlyFileRefDesc = true ∧
    sectionFound onlyFileRefDesc beginGroup endGroup = false ∧
    findMainGroupId onlyFileRefDesc = none ∧
    findResourcesSection onlyFileRefDesc = none ∧
    sectionFound onlyFileRefDesc beginBuildFile endBuildFile = false ∧
    (add_resources_to_project onlyFileRefDesc uA1 uA2 uA3 uA4 uA5 uA6).isSome = true :=
  ⟨by decide, by decide, by decide, by decide, by decide,
    C3_guarded_steps_amended.1 onlyFileRefDesc uA1 uA2 uA3 uA4 uA5 uA6
      (by decide) (by decide) (by decide)⟩

/-- C3 (counterexample): on a descriptor lacking only the PBXFileReference
markers — group, Resources-phase and build-file anchors all present — the
Resource Bundler performs no write at all, refuting "the specific insertion
step is skipped, the script proceeds to every remaining insertion step, and
the run still completes by writing the file". -/
theorem C3_missing_fileref_counterexample :
    containsSubstr noFileRefDesc (chars "Resources/bin") = false ∧
    containsSubstr noFileRefDesc (chars "Resources folder") = false ∧
    sectionFound noFileRefDesc beginFileRef endFileRef = false ∧
    sectionFound noFileRefDesc beginGroup endGroup = true ∧
    sectionFound noFileRefDesc beginBuildFile endBuildFile = true ∧
    add_resources_to_project noFileRefDesc uA1 uA2 uA3 uA4 uA5 uA6 = none :=
  ⟨by decide, by decide, by decide, by decide, by decide, by decide⟩

/-- C10: whenever the content does not contain 'Fix Binary Permissions',
`add_build_phase` always rewrites the file — and when the shell-script
section, the backslash-carrying replace target and the target record all
fail to match, the written content is identical to the original. -/
theorem C10_always_writes (content p q : List Char)
    (hm : containsSubstr content (chars "Fix Binary Permissions") = false) :
    (add_build_phase content p q).isSome = true ∧
    (sectionFound content beginShell endShell = false →
      containsSubstr content endResPhaseBS = false →
      targetMatch content = none →
      add_build_phase content p q = some content) := by
  constructor
  · simp [add_build_phase, hm]
  · intro h1 h2 h3
    have hshell : shellStep content p = content := by
      unfold shellStep
      rw [h1]
      simp only [Bool.false_eq_true, if_false]
      cases hres : containsSubstr content endResPhase with
      | false => simp [hres]
      | true => simp [hres, replaceAll_not_contains h2]
    have hwire : wireStep content p = content := by
      simp [wireStep, h3]
    simp [add_build_phase, hm, hshell, hwire]

theorem C10_always_writes_witness :
    containsSubstr (chars "hello world") (chars "Fix Binary Permissions") = false ∧
    targetMatch (chars "hello world") = none ∧
    add_build_phase (chars "hello world") uP uQ = some (chars "hello world") :=
  ⟨by decide, by decide,
    (C10_always_writes (chars "hello world") uP uQ (by decide)).2
      (by decide) (by decide) (by decide)⟩

/-- C7: with the marker absent and the hard-coded target record matching
the script's pattern (on the content as it stands when the target regex
runs, i.e. after the section-handling step), `add_build_phase` appends the
fresh phase identifier after the existing entries of that target's
`buildPhases` list — the written content contains the matched list followed
by a comma and the new `/* Fix Binary Permissions */` entry — and it does so
only when that identifier is not already present in the matched text:
otherwise the wiring step leaves the content unchanged. -/
theorem C7_target_wiring (content p q bp : List Char)
    (hm : containsSubstr content (chars "Fix Binary Permissions") = false)
    (ht : targetMatch (shellStep content p) = some bp) :
    (containsSubstr bp p = false →
      containsSubstr ((add_build_phase content p q).getD [])
        (bp ++ chars ",\n\t\t\t\t" ++ p ++
          chars " /* Fix Binary Permissions */,\n\t\t\t);") = true) ∧
    (containsSubstr bp p = true →
      add_build_phase content p q = some (shellStep content p)) := by
  have hbase : add_build_phase content p q =
      some (wireStep (shellStep content p) p) := by
    simp [add_build_phase, hm]
  constructor
  · intro hnp
    have hw : wireStep (shellStep content p) p =
        replaceAll (shellStep content p) (bp ++ chars ");")
          (bp ++ chars ",\n\t\t\t\t" ++ p ++
            chars " /* Fix Binary Permissions */,\n\t\t\t);") := by
      simp [wireStep, ht, hnp]
    rw [hbase]
    simp only [Option.getD_some]
    rw [hw]
    have hc : containsSubstr (shellStep content p) (bp ++ chars ");") = true :=
      targetMatch_contains ht
    have hne : bp ++ chars ");" ≠ [] := by
      intro hnil
      exact absurd (List.append_eq_nil.mp hnil).2 (by decide)
    exact replaceAll_contains hne hc
  · intro hyp
    rw [hbase]
    have : wireStep (shellStep content p) p = shellStep content p := by
      simp [wireStep, ht, hyp]
    rw [this]

theorem C7_target_wiring_witness :
    containsSubstr injDesc (chars "Fix Binary Permissions") = false ∧
    targetMatch (shellStep injDesc uP) = some injBP ∧
    containsSubstr injBP uP = false ∧
    containsSubstr ((add_build_phase injDesc uP uQ).getD [])
      (injBP ++ chars ",\n\t\t\t\t" ++ uP ++
        chars " /* Fix Binary Permissions */,\n\t\t\t);") = true :=
  ⟨by decide, by decide, by decide,
    (C7_target_wiring injDesc uP uQ injBP (by decide) (by decide)).1 (by decide)⟩

/-- C1 (refutation): the Resource Bundler's own output never contains the
idempotency markers it checks for ('Resources/bin', 'Resources folder'), so
a second `add_resources_to_project` run on a once-patched file does not
detect a marker and return: it writes, and it writes different content
(fresh records are spliced in a second time). -/
theorem C1_bundler_not_idempotent :
    containsSubstr bundlerOut1 (chars "Resources/bin") = false ∧
    containsSubstr bundlerOut1 (chars "Resources folder") = false ∧
    (add_resources_to_project bundlerOut1 uB1 uB2 uB3 uB4 uB5 uB6).isSome = true ∧
    add_resources_to_project bundlerOut1 uB1 uB2 uB3 uB4 uB5 uB6 ≠
      some bundlerOut1 := by
  have hb : eqChars
      ((add_resources_to_project bundlerOut1 uB1 uB2 uB3 uB4 uB5 uB6).getD [])
      bundlerOut1 = false := by decide
  refine ⟨by decide, by decide, by decide, ?_⟩
  intro hcontra
  rw [hcontra] at hb
  simp only [Option.getD_some] at hb
  rw [eqChars_refl] at hb
  simp at hb

/-- C2 (refutation): on a descriptor with the PBXResourcesBuildPhase end
marker, no PBXShellScriptBuildPhase section and no marker text, the
injector's `content.replace` targets the literal
`/\* End PBXResourcesBuildPhase section */` (with a backslash), which does
not occur, so the written file contains no PBXShellScriptBuildPhase section
at all — not the exactly-one new section the claim states. -/
theorem C2_section_not_created :
    containsSubstr injDesc (chars "Fix Binary Permissions") = false ∧
    sectionFound injDesc beginShell endShell = false ∧
    containsSubstr injDesc endResPhase = true ∧
    containsSubstr injDesc endResPhaseBS = false ∧
    (add_build_phase injDesc uP uQ).isSome = true ∧
    containsSubstr ((add_build_phase injDesc uP uQ).getD [])
      (chars "PBXShellScriptBuildPhase") = false :=
  ⟨by decide, by decide, by decide, by decide, by decide, by decide⟩

/-- C6: on the minimal descriptor holding exactly the section markers and
hard-coded identifiers the Resource Bundler uses (and no idempotency
marker), the written file contains exactly one folder file-reference record
for Resources, exactly one for bin, and exactly one executable
file-reference record for each of yt-dlp, ffmpeg and ffprobe. -/
theorem C6_minimal_descriptor_insertions :
    (add_resources_to_project minDesc uA1 uA2 uA3 uA4 uA5 uA6).isSome = true ∧
    appearsExactlyOnce bundlerOut1
      (chars "isa = PBXFileReference; lastKnownFileType = folder; path = Resources;") = true ∧
    appearsExactlyOnce bundlerOut1
      (chars "isa = PBXFileReference; lastKnownFileType = folder; path = bin;") = true ∧
    appearsExactlyOnce bundlerOut1
      (chars "lastKnownFileType = \"compiled.mach-o.executable\"; path = \"yt-dlp\";") = true ∧
    appearsExactlyOnce bundlerOut1
      (chars "lastKnownFileType = \"compiled.mach-o.executable\"; path = ffmpeg;") = true ∧
    appearsExactlyOnce bundlerOut1
      (chars "lastKnownFileType = \"compiled.mach-o.executable\"; path = ffprobe;") = true :=
  ⟨by decide, by decide, by decide, by decide, by decide, by decide⟩
